import Mathlib

/-!
# Verification of the RKD telemetry extractor

A shallow embedding of `rkd_parser.py` (Race-Keeper RKD binary telemetry
parser) and proofs about it.  Byte buffers are modelled as `List ℕ` whose
reads are taken modulo 256 (the `bytes` type constraint), Python `int` as
`ℤ`/`ℕ`, Python `float` as `ℚ` (exact real arithmetic; every operation the
claims touch is rational), and Python exceptions as `Except String`.
Python `struct.unpack` demands an exact-size buffer; that behaviour is kept.

The record scanner is written with an explicit fuel parameter so that it is
structurally recursive and evaluates by kernel reduction; `parse` passes
`data.length` fuel, which is ample because each iteration consumes at least
the 10-byte record header, and a fuel-extensionality theorem below shows the
result does not depend on the exact fuel once it is sufficient.

Batteries marks the arithmetic on `Rat` `@[irreducible]`; restoring the
default reducibility lets concrete rational computations reduce. This has no
logical content (reducibility attributes never reach the kernel).
-/

set_option allowUnsafeReducibility true
attribute [semireducible] Rat.add Rat.mul Rat.sub Rat.inv

namespace RKD

/-- Read byte `i` of the buffer.  Out of range reads never occur on the
paths the parser takes; the modulus records that elements are bytes. -/
def byteAt (data : List ℕ) (i : ℕ) : ℕ := data.getD i 0 % 256

/-- Little-endian unsigned 16-bit read at offset `i`. -/
def readU16 (data : List ℕ) (i : ℕ) : ℕ := byteAt data i + 256 * byteAt data (i + 1)

/-- Little-endian unsigned 32-bit read at offset `i`. -/
def readU32 (data : List ℕ) (i : ℕ) : ℕ := readU16 data i + 65536 * readU16 data (i + 2)

/-- Reinterpret a `w`-bit unsigned value as a signed (twos-complement) integer. -/
def toSigned (w : ℕ) (v : ℕ) : ℤ := if v < 2 ^ (w - 1) then (v : ℤ) else (v : ℤ) - 2 ^ w

/-- Little-endian signed 16-bit read at offset `i`. -/
def readI16 (data : List ℕ) (i : ℕ) : ℤ := toSigned 16 (readU16 data i)

/-- Little-endian signed 32-bit read at offset `i`. -/
def readI32 (data : List ℕ) (i : ℕ) : ℤ := toSigned 32 (readU32 data i)

/-- The 8-byte RKD magic signature `\x89RKD\r\n\x1a\n`
(`89 52 4B 44 0D 0A 1A 0A`). -/
def RKD_MAGIC : List ℕ := [137, 82, 75, 68, 13, 10, 26, 10]

/-- Python float modulus with positive divisor 360: the representative of
`x` modulo 360 lying in `[0, 360)`.  This is the meaning of `x % 360`
on floats in the source.  (`Rat.floor` is used rather than `Int.floor` so
the definition evaluates by kernel reduction; they agree definitionally.) -/
def fmod360 (x : ℚ) : ℚ := x - 360 * (Rat.floor (x / 360) : ℚ)

/-- `int()` applied to a float: truncation toward zero. -/
def ratTrunc (q : ℚ) : ℤ := if q < 0 then -(Rat.floor (-q)) else Rat.floor q

/-- `_lerp` from the source: linear interpolation between `a` and `b`. -/
def lerp (a b t : ℚ) : ℚ := a + (b - a) * t

/-- `_lerp_angle` from the source:
`diff = (b - a + 180) % 360 - 180; result = a + diff * t; return result % 360`. -/
def lerp_angle (a b t : ℚ) : ℚ :=
  let diff := fmod360 (b - a + 180) - 180
  fmod360 (a + diff * t)

/-- The wraparound difference the source computes inside `_lerp_angle`. -/
def angleDiff (a b : ℚ) : ℚ := fmod360 (b - a + 180) - 180

/-- Modelled from the spec (claim C3 wording): the representative of
`b - a` modulo 360 lying in the interval `(-180, 180]` (open below, closed
above).  Used only to compare the code with the claimed interval. -/
def specAngleDiff (a b : ℚ) : ℚ := 180 - fmod360 (a - b + 180)

/-- Unix seconds of the GPS epoch 1980-01-06T00:00:00Z: ten 365-day years,
two leap days (1972, 1976) and five further days after 1970-01-01. -/
def gpsEpochUnixSeconds : ℤ := (365 * 10 + 2 + 5) * 86400

/-- `GPS_LEAP_SECONDS` from the source. -/
def GPS_LEAP_SECONDS : ℕ := 18

/-- `_gps_to_utc_ms` from the source: `GPS_EPOCH + timedelta(seconds=g - 18)`
converted to Unix milliseconds.  Adding a whole-second delta to the epoch
datetime and taking `.timestamp() * 1000` is exactly this integer
arithmetic (all values involved are exactly representable doubles). -/
def gps_to_utc_ms (gps_seconds : ℕ) : ℤ :=
  (gpsEpochUnixSeconds + ((gps_seconds : ℤ) - (GPS_LEAP_SECONDS : ℤ))) * 1000

/-- `GPSFix` from the source (one decoded GPS record). -/
structure GPSFix where
  frame : ℕ
  gps_timestamp : ℕ
  utc_ms : ℤ
  satellites : ℤ
  latitude : ℚ
  longitude : ℚ
  speed_ms : ℚ
  heading_deg : ℚ
  altitude_m : ℚ
  vertical_speed_cms : ℤ
deriving DecidableEq

/-- `IMUFrame` from the source (merged accelerometer + gyroscope sample). -/
structure IMUFrame where
  frame : ℕ
  accel_x : ℚ
  accel_y : ℚ
  accel_z : ℚ
  gyro_x : ℚ
  gyro_y : ℚ
  gyro_z : ℚ
deriving DecidableEq

/-- The mutable state of one scanning pass: the `RKDSession` fields the
record stream can touch, plus the two transient staging dictionaries
(`_accel_by_frame`, `_gyro_by_frame`).  `config` holds raw key/value byte
strings (the permissive ASCII decoding is injective on what the claims
observe). -/
structure ScanState where
  config : List (List ℕ × List ℕ)
  gps_fixes : List GPSFix
  accel_by_frame : List (ℕ × (ℚ × ℚ × ℚ))
  gyro_by_frame : List (ℕ × (ℚ × ℚ × ℚ))
  record_counts : List (ℕ × ℕ)
  terminator_timestamp : ℕ
deriving DecidableEq

/-- The empty state a parse starts from. -/
def initState : ScanState :=
  { config := [], gps_fixes := [], accel_by_frame := [], gyro_by_frame := [],
    record_counts := [], terminator_timestamp := 0 }

/-- `RKDSession` as returned by `parse` (the `file_path` string is dropped;
it never influences parsing). -/
structure RKDSession where
  file_size : ℕ
  car_id : ℕ
  session_timestamp : ℕ
  config : List (List ℕ × List ℕ)
  gps_fixes : List GPSFix
  imu_frames : List IMUFrame
  record_counts : List (ℕ × ℕ)
  terminator_timestamp : ℕ
deriving DecidableEq

/-- First-match lookup in an association list.  The parser only ever builds
association lists with distinct keys (Python `dict` semantics), for which
this is `dict.get`. -/
def dictGet {α β : Type} [DecidableEq α] : List (α × β) → α → Option β
  | [], _ => none
  | p :: rest, k => if p.1 = k then some p.2 else dictGet rest k

/-- Python `dict` assignment `d[k] = v`: overwrite in place if the key is
present, otherwise append (insertion order is preserved). -/
def dictInsert {α β : Type} [DecidableEq α] (d : List (α × β)) (k : α) (v : β) :
    List (α × β) :=
  if (dictGet d k).isSome then d.map (fun p => if p.1 = k then (k, v) else p)
  else d ++ [(k, v)]

/-- `session.record_counts[rtype] = session.record_counts.get(rtype, 0) + 1`. -/
def bumpCount (st : ScanState) (rtype : ℕ) : ScanState :=
  { st with record_counts :=
      dictInsert st.record_counts rtype (((dictGet st.record_counts rtype).getD 0) + 1) }

/-- Strip trailing zero bytes (`payload.rstrip(b"\x00")`). -/
def rstripZeros (l : List ℕ) : List ℕ := (l.reverse.dropWhile (· == 0)).reverse

/-- `_parse_header_record`: strip trailing nulls, split on the first
remaining null into key and value, store in `config`; if no null remains
the record is dropped. -/
def parse_header_record (payload : List ℕ) (st : ScanState) : ScanState :=
  let text := rstripZeros payload
  if text.contains 0 then
    let key := text.takeWhile (· ≠ 0)
    let value := (text.dropWhile (· ≠ 0)).tail
    { st with config := dictInsert st.config key value }
  else st

/-- The message of the `struct.error` raised by `struct.unpack("<2I2h6i", p)`
when `p` is not exactly 36 bytes. -/
def gpsSizeError : String := "unpack requires a buffer of 36 bytes"

/-- The message of the `struct.error` raised by `struct.unpack("<3i", p)`
when `p` is not exactly 12 bytes (accelerometer and gyroscope records). -/
def imuSizeError : String := "unpack requires a buffer of 12 bytes"

/-- `_parse_gps_record`: skip if shorter than 36 bytes; `struct.unpack`
raises if longer than 36 bytes; otherwise decode and append a `GPSFix`.
Payload layout: `subtype u32, gps_timestamp u32, satellites i16, pad i16,`
then six `i32` (latitude, longitude, speed, heading, altitude,
vertical speed) with the unit conversions of the source. -/
def parse_gps_record (payload : List ℕ) (frame : ℕ) (st : ScanState) :
    Except String ScanState :=
  if payload.length < 36 then .ok st
  else if payload.length ≠ 36 then .error gpsSizeError
  else
    let gps_ts := readU32 payload 4
    .ok { st with gps_fixes := st.gps_fixes ++ [{
      frame := frame,
      gps_timestamp := gps_ts,
      utc_ms := gps_to_utc_ms gps_ts,
      satellites := readI16 payload 8,
      latitude := (readI32 payload 12 : ℚ) / 10000000,
      longitude := (readI32 payload 16 : ℚ) / 10000000,
      speed_ms := (readI32 payload 20 : ℚ) / 100,
      heading_deg := (readI32 payload 24 : ℚ) / 100000,
      altitude_m := (readI32 payload 28 : ℚ) / 1000,
      vertical_speed_cms := readI32 payload 32 }] }

/-- `_parse_accel_record`: skip if shorter than 12 bytes; `struct.unpack`
raises if longer; otherwise stage `raw * 9.81 / 1000` per axis. -/
def parse_accel_record (payload : List ℕ) (frame : ℕ) (st : ScanState) :
    Except String ScanState :=
  if payload.length < 12 then .ok st
  else if payload.length ≠ 12 then .error imuSizeError
  else
    let v : ℚ × ℚ × ℚ :=
      ((readI32 payload 0 : ℚ) * (981 / 100) / 1000,
       (readI32 payload 4 : ℚ) * (981 / 100) / 1000,
       (readI32 payload 8 : ℚ) * (981 / 100) / 1000)
    .ok { st with accel_by_frame := dictInsert st.accel_by_frame frame v }

/-- `_parse_gyro_record`: skip if shorter than 12 bytes; `struct.unpack`
raises if longer; otherwise stage `raw / 28.0` per axis. -/
def parse_gyro_record (payload : List ℕ) (frame : ℕ) (st : ScanState) :
    Except String ScanState :=
  if payload.length < 12 then .ok st
  else if payload.length ≠ 12 then .error imuSizeError
  else
    let v : ℚ × ℚ × ℚ :=
      ((readI32 payload 0 : ℚ) / 28,
       (readI32 payload 4 : ℚ) / 28,
       (readI32 payload 8 : ℚ) / 28)
    .ok { st with gyro_by_frame := dictInsert st.gyro_by_frame frame v }

/-- `_parse_terminator_record`: reads one `u32` Unix timestamp if at least
4 payload bytes are present, otherwise leaves the state untouched
(`struct.unpack_from` never sees fewer than 4 bytes). -/
def parse_terminator_record (payload : List ℕ) (st : ScanState) : ScanState :=
  if 4 ≤ payload.length then { st with terminator_timestamp := readU32 payload 0 }
  else st

/-- `_parse_records`, one loop iteration per fuel unit.  Record header
(10 bytes): `crc u16` (ignored), `type u16`, `payload_size u16`,
`frame_lo u16`, `frame_hi u16`; the frame number is
`(frame_hi << 16) | frame_lo`, written here as `frame_hi * 65536 + frame_lo`
(equal because `frame_lo < 65536`).  A payload overrunning the
trailing-checksum boundary `endB` stops the scan silently; the per-type
counter is incremented before dispatch; a TERMINATOR record (type 0x8001 =
32769) stops the scan after decoding. -/
def parse_records (data : List ℕ) (endB : ℕ) : ℕ → ℕ → ScanState → Except String ScanState
  | 0, _, st => .ok st
  | fuel + 1, offset, st =>
    if offset + 10 ≤ endB then
      let rtype := readU16 data (offset + 2)
      let payload_size := readU16 data (offset + 4)
      let frame := readU16 data (offset + 8) * 65536 + readU16 data (offset + 6)
      let payload_end := offset + 10 + payload_size
      if endB < payload_end then .ok st
      else
        let payload := (data.drop (offset + 10)).take payload_size
        let st1 := bumpCount st rtype
        if rtype = 1 then
          parse_records data endB fuel payload_end (parse_header_record payload st1)
        else if rtype = 2 then
          match parse_gps_record payload frame st1 with
          | .error e => .error e
          | .ok st2 => parse_records data endB fuel payload_end st2
        else if rtype = 7 then
          match parse_accel_record payload frame st1 with
          | .error e => .error e
          | .ok st2 => parse_records data endB fuel payload_end st2
        else if rtype = 12 then
          match parse_gyro_record payload frame st1 with
          | .error e => .error e
          | .ok st2 => parse_records data endB fuel payload_end st2
        else if rtype = 32769 then
          .ok (parse_terminator_record payload st1)
        else
          parse_records data endB fuel payload_end st1
    else .ok st

/-- `_merge_imu`: one `IMUFrame` per frame in the sorted union of the two
staging dictionaries, any absent channel zero-filled.
`sorted(set(A) | set(B))` is the ascending duplicate-free enumeration of
the union of the key sets, here computed as an insertion sort of the
deduplicated concatenation of the key lists. -/
def merge_imu (accel gyro : List (ℕ × (ℚ × ℚ × ℚ))) : List IMUFrame :=
  let frames := List.insertionSort (· ≤ ·) (accel.map Prod.fst ++ gyro.map Prod.fst).dedup
  frames.map (fun f =>
    let a := (dictGet accel f).getD (0, 0, 0)
    let g := (dictGet gyro f).getD (0, 0, 0)
    { frame := f, accel_x := a.1, accel_y := a.2.1, accel_z := a.2.2,
      gyro_x := g.1, gyro_y := g.2.1, gyro_z := g.2.2 })

/-- `RKDParser.parse`: magic validation (`ValueError` on failure), meta
header (7 little-endian `u32` after the magic; index 4 is `car_id`, index 5
`session_timestamp`, hence offsets 24 and 28), record scan up to
`len - 2` (the trailing CRC is never read), then the IMU merge. -/
def parse (data : List ℕ) : Except String RKDSession :=
  if data.length < 8 then .error "File too small to be an RKD file"
  else if data.take 8 ≠ RKD_MAGIC then .error "Invalid RKD magic"
  else if data.length < 36 then .error "File too small for meta header"
  else
    match parse_records data (data.length - 2) data.length 36 initState with
    | .error e => .error e
    | .ok st => .ok {
        file_size := data.length,
        car_id := readU32 data 24,
        session_timestamp := readU32 data 28,
        config := st.config,
        gps_fixes := st.gps_fixes,
        imu_frames := merge_imu st.accel_by_frame st.gyro_by_frame,
        record_counts := st.record_counts,
        terminator_timestamp := st.terminator_timestamp }

/-- The all-zero `GPSFix`, used as the (never reached) default of
bounds-checked list indexing. -/
def gpsDefault : GPSFix :=
  { frame := 0, gps_timestamp := 0, utc_ms := 0, satellites := 0, latitude := 0,
    longitude := 0, speed_ms := 0, heading_deg := 0, altitude_m := 0,
    vertical_speed_cms := 0 }

/-- One CSV output row, restricted to the GPS-derived columns (plus the IMU
frame number that keys the row).  The remaining columns are either copied
verbatim from the `IMUFrame` or are trigonometric display channels that no
claim mentions. -/
structure Row where
  frame : ℕ
  utc_ms : ℤ
  lat : ℚ
  lon : ℚ
  speed : ℚ
  alt : ℚ
  heading : ℚ
  vspeed_cms : ℚ
  satellites : ℤ
deriving DecidableEq

/-- The bracket-advance loop of `export_csv`:
`while gps_idx < len(gps_fixes) - 1 and gps_fixes[gps_idx + 1].frame <= imu.frame`.
Fuelled structural recursion; `fixes.length` fuel is ample since the index
grows by one per step and stays below `fixes.length`. -/
def advanceIdx (fixes : List GPSFix) (f : ℕ) : ℕ → ℕ → ℕ
  | 0, idx => idx
  | fuel + 1, idx =>
    if idx + 1 < fixes.length ∧ (fixes.getD (idx + 1) gpsDefault).frame ≤ f then
      advanceIdx fixes f fuel (idx + 1)
    else idx

/-- The GPS-derived fields of the row `export_csv` writes for IMU frame `x`
with bracket index `idx`: interpolate between `fixes[idx]` and
`fixes[idx+1]` when a later fix exists (with `t = 0` when the two fixes
share a frame), otherwise use the last fix directly. -/
def rowFor (fixes : List GPSFix) (idx : ℕ) (x : IMUFrame) : Row :=
  let g0 := fixes.getD idx gpsDefault
  if idx + 1 < fixes.length then
    let g1 := fixes.getD (idx + 1) gpsDefault
    let span : ℤ := (g1.frame : ℤ) - (g0.frame : ℤ)
    let t : ℚ := if 0 < span then ((x.frame : ℚ) - (g0.frame : ℚ)) / (span : ℚ) else 0
    { frame := x.frame,
      utc_ms := ratTrunc (lerp (g0.utc_ms : ℚ) (g1.utc_ms : ℚ) t),
      lat := lerp g0.latitude g1.latitude t,
      lon := lerp g0.longitude g1.longitude t,
      speed := lerp g0.speed_ms g1.speed_ms t,
      alt := lerp g0.altitude_m g1.altitude_m t,
      heading := lerp_angle g0.heading_deg g1.heading_deg t,
      vspeed_cms := lerp (g0.vertical_speed_cms : ℚ) (g1.vertical_speed_cms : ℚ) t,
      satellites := g0.satellites }
  else
    { frame := x.frame,
      utc_ms := g0.utc_ms,
      lat := g0.latitude,
      lon := g0.longitude,
      speed := g0.speed_ms,
      alt := g0.altitude_m,
      heading := g0.heading_deg,
      vspeed_cms := (g0.vertical_speed_cms : ℚ),
      satellites := g0.satellites }

/-- Modelled from the spec (claim C2 wording): all GPS-derived fields taken
directly from fix `g`, unmodified.  Used to compare the code against the
"direct use" branch the claim describes. -/
def directRow (g : GPSFix) (x : IMUFrame) : Row :=
  { frame := x.frame,
    utc_ms := g.utc_ms,
    lat := g.latitude,
    lon := g.longitude,
    speed := g.speed_ms,
    alt := g.altitude_m,
    heading := g.heading_deg,
    vspeed_cms := (g.vertical_speed_cms : ℚ),
    satellites := g.satellites }

/-- The row loop of `export_csv` over the IMU frames, carrying the
monotone bracket index.  Frames outside `[lo, hi]` are skipped. -/
def csvRowsAux (fixes : List GPSFix) (lo hi : ℕ) : ℕ → List IMUFrame → List Row
  | _, [] => []
  | idx, x :: rest =>
    if x.frame < lo ∨ hi < x.frame then csvRowsAux fixes lo hi idx rest
    else
      let idx2 := advanceIdx fixes x.frame fixes.length idx
      rowFor fixes idx2 x :: csvRowsAux fixes lo hi idx2 rest

/-- The GPS-derived row stream of `export_csv` over a finished session:
nothing is emitted when either stream is empty; otherwise one row per IMU
frame lying between the first and last GPS fix frames. -/
def csvRows (s : RKDSession) : List Row :=
  if s.imu_frames = [] ∨ s.gps_fixes = [] then []
  else csvRowsAux s.gps_fixes ((s.gps_fixes.headD gpsDefault).frame)
    ((s.gps_fixes.getLastD gpsDefault).frame) 0 s.imu_frames

/-- The error message of a failed run, `none` on success. -/
def errOf {α : Type} : Except String α → Option String
  | .error e => some e
  | .ok _ => none

/-- A buffer with a valid signature and meta header whose single GPS record
declares a 37-byte payload (one byte more than the fixed GPS size), all
payload bytes present inside the checksum boundary. -/
def cbufC1 : List ℕ :=
  RKD_MAGIC ++ List.replicate 28 0 ++ [0, 0, 2, 0, 37, 0, 0, 0, 0, 0] ++
    List.replicate 37 0 ++ [0, 0]

/-- A buffer whose single record header declares a 100-byte payload with no
payload bytes following (the truncated-record scenario). -/
def cbufC5 : List ℕ :=
  RKD_MAGIC ++ List.replicate 28 0 ++ [0, 0, 2, 0, 100, 0, 0, 0, 0, 0] ++ [0, 0]

/-- A buffer with a valid signature and meta header whose single
accelerometer record declares a 13-byte payload (one byte more than the
fixed accelerometer size). -/
def cbufC6 : List ℕ :=
  RKD_MAGIC ++ List.replicate 28 0 ++ [0, 0, 7, 0, 13, 0, 0, 0, 0, 0] ++
    List.replicate 13 0 ++ [0, 0]

/-- A well-formed all-zero GPS record (36-byte payload) at frame `flo`. -/
def gpsRecZero (flo : ℕ) : List ℕ :=
  [0, 0, 2, 0, 36, 0, flo, 0, 0, 0] ++ List.replicate 36 0

/-- A buffer holding two GPS records whose frames arrive out of order
(frame 5 before frame 3). -/
def cbufC9 : List ℕ :=
  RKD_MAGIC ++ List.replicate 28 0 ++ gpsRecZero 5 ++ gpsRecZero 3 ++ [0, 0]

/-- A buffer whose single GPS record declares a 0-byte payload (short
payload, soft-skipped). -/
def cbufC8 : List ℕ :=
  RKD_MAGIC ++ List.replicate 28 0 ++ [0, 0, 2, 0, 0, 0, 0, 0, 0, 0] ++ [0, 0]

/-- A GPS fix at frame 0 whose stored heading is `-1` degrees (decodable
from a GPS record whose raw heading field is `-100000`). -/
def cexFix0 : GPSFix :=
  { frame := 0, gps_timestamp := 0, utc_ms := 1000, satellites := 7, latitude := 1,
    longitude := 2, speed_ms := 3, heading_deg := -1, altitude_m := 4,
    vertical_speed_cms := 5 }

/-- A second GPS fix at frame 6. -/
def cexFix1 : GPSFix :=
  { frame := 6, gps_timestamp := 0, utc_ms := 2000, satellites := 8, latitude := 2,
    longitude := 3, speed_ms := 4, heading_deg := 90, altitude_m := 5,
    vertical_speed_cms := 6 }

/-- An IMU frame whose frame number coincides with `cexFix0.frame`. -/
def cexImu : IMUFrame :=
  { frame := 0, accel_x := 0, accel_y := 0, accel_z := 0,
    gyro_x := 0, gyro_y := 0, gyro_z := 0 }

/-- A finished session with two GPS fixes and one IMU frame sitting exactly
on the frame of the first (non-last) fix. -/
def cexSession : RKDSession :=
  { file_size := 0, car_id := 0, session_timestamp := 0, config := [],
    gps_fixes := [cexFix0, cexFix1], imu_frames := [cexImu], record_counts := [],
    terminator_timestamp := 0 }

/-! ## Supporting lemmas -/

theorem ratFloor_eq_floor (q : ℚ) : (Rat.floor q : ℤ) = ⌊q⌋ := rfl

theorem fmod360_def (x : ℚ) : fmod360 x = x - 360 * ((⌊x / 360⌋ : ℤ) : ℚ) := by
  rw [fmod360, ratFloor_eq_floor]

theorem fmod360_nonneg (x : ℚ) : 0 ≤ fmod360 x := by
  rw [fmod360_def]
  have h1 : ((⌊x / 360⌋ : ℤ) : ℚ) ≤ x / 360 := Int.floor_le _
  have h2 : x / 360 * 360 = x := div_mul_cancel₀ x (by norm_num)
  nlinarith [mul_le_mul_of_nonneg_right h1 (by norm_num : (0 : ℚ) ≤ 360)]

theorem fmod360_lt (x : ℚ) : fmod360 x < 360 := by
  rw [fmod360_def]
  have h1 : x / 360 < (⌊x / 360⌋ : ℤ) + 1 := Int.lt_floor_add_one _
  have h2 : x / 360 * 360 = x := div_mul_cancel₀ x (by norm_num)
  nlinarith [mul_lt_mul_of_pos_right h1 (by norm_num : (0 : ℚ) < 360)]

theorem fmod360_int_multiple (k : ℤ) : fmod360 (360 * (k : ℚ)) = 0 := by
  rw [fmod360_def]
  have h : (360 : ℚ) * k / 360 = (k : ℚ) := by
    rw [mul_comm, mul_div_assoc]
    simp
  rw [h, Int.floor_intCast]
  ring

theorem dictGet_append_of_none {α β : Type} [DecidableEq α] (d : List (α × β)) (k : α)
    (v : β) (h : dictGet d k = none) : dictGet (d ++ [(k, v)]) k = some v := by
  induction d with
  | nil => simp [dictGet]
  | cons p rest ih =>
    simp only [List.cons_append, dictGet] at h ⊢
    by_cases hp : p.1 = k
    · rw [if_pos hp] at h
      exact absurd h (by simp)
    · rw [if_neg hp] at h ⊢
      exact ih h

theorem dictGet_map_overwrite {α β : Type} [DecidableEq α] (d : List (α × β)) (k : α)
    (v : β) (h : (dictGet d k).isSome) :
    dictGet (d.map (fun p => if p.1 = k then (k, v) else p)) k = some v := by
  induction d with
  | nil => simp [dictGet] at h
  | cons p rest ih =>
    rw [dictGet] at h
    by_cases hp : p.1 = k
    · simp [List.map_cons, if_pos hp, dictGet]
    · rw [if_neg hp] at h
      simp only [List.map_cons, if_neg hp, dictGet, if_neg hp]
      exact ih h

theorem dictGet_dictInsert_self {α β : Type} [DecidableEq α] (d : List (α × β)) (k : α)
    (v : β) : dictGet (dictInsert d k v) k = some v := by
  rw [dictInsert]
  by_cases h : (dictGet d k).isSome
  · rw [if_pos h]
    exact dictGet_map_overwrite d k v h
  · rw [if_neg h]
    exact dictGet_append_of_none d k v (by
      cases hd : dictGet d k
      · rfl
      · rw [hd] at h
        exact absurd rfl h)

theorem parse_gps_record_short (payload : List ℕ) (frame : ℕ) (st : ScanState)
    (h : payload.length < 36) : parse_gps_record payload frame st = .ok st := by
  rw [parse_gps_record, if_pos h]

theorem parse_accel_record_short (payload : List ℕ) (frame : ℕ) (st : ScanState)
    (h : payload.length < 12) : parse_accel_record payload frame st = .ok st := by
  rw [parse_accel_record, if_pos h]

theorem parse_gyro_record_short (payload : List ℕ) (frame : ℕ) (st : ScanState)
    (h : payload.length < 12) : parse_gyro_record payload frame st = .ok st := by
  rw [parse_gyro_record, if_pos h]

theorem parse_terminator_record_short (payload : List ℕ) (st : ScanState)
    (h : payload.length < 4) : parse_terminator_record payload st = st := by
  rw [parse_terminator_record, if_neg (by omega)]

theorem parse_gps_record_cases (payload : List ℕ) (frame : ℕ) (st : ScanState) :
    (∃ st2, parse_gps_record payload frame st = .ok st2) ∨
    parse_gps_record payload frame st = .error gpsSizeError := by
  rw [parse_gps_record]
  split
  · exact .inl ⟨st, rfl⟩
  · split
    · exact .inr rfl
    · exact .inl ⟨_, rfl⟩

theorem parse_accel_record_cases (payload : List ℕ) (frame : ℕ) (st : ScanState) :
    (∃ st2, parse_accel_record payload frame st = .ok st2) ∨
    parse_accel_record payload frame st = .error imuSizeError := by
  rw [parse_accel_record]
  split
  · exact .inl ⟨st, rfl⟩
  · split
    · exact .inr rfl
    · exact .inl ⟨_, rfl⟩

theorem parse_gyro_record_cases (payload : List ℕ) (frame : ℕ) (st : ScanState) :
    (∃ st2, parse_gyro_record payload frame st = .ok st2) ∨
    parse_gyro_record payload frame st = .error imuSizeError := by
  rw [parse_gyro_record]
  split
  · exact .inl ⟨st, rfl⟩
  · split
    · exact .inr rfl
    · exact .inl ⟨_, rfl⟩

theorem parse_records_stop (data : List ℕ) (endB fuel offset : ℕ) (st : ScanState)
    (h : endB < offset + 10) : parse_records data endB fuel offset st = .ok st := by
  cases fuel with
  | zero => rfl
  | succ n => rw [parse_records, if_neg (by omega)]

/-- The scanner result does not depend on the fuel once the fuel dominates
the remaining span (each iteration consumes at least the 10-byte header);
`parse` passes `data.length ≥ endB + 2` fuel, far more than needed. -/
theorem parse_records_fuel_ext (data : List ℕ) (endB : ℕ) :
    ∀ fuel fuel' offset st, endB < offset + 10 * fuel → endB < offset + 10 * fuel' →
    parse_records data endB fuel offset st = parse_records data endB fuel' offset st := by
  intro fuel
  induction fuel with
  | zero =>
    intro fuel' offset st h h'
    rw [parse_records_stop data endB 0 offset st (by omega),
      parse_records_stop data endB fuel' offset st (by omega)]
  | succ n ih =>
    intro fuel' offset st h h'
    cases fuel' with
    | zero =>
      rw [parse_records_stop data endB (n + 1) offset st (by omega),
        parse_records_stop data endB 0 offset st (by omega)]
    | succ m =>
      by_cases hc : offset + 10 ≤ endB
      · rw [parse_records, if_pos hc]
        conv_rhs => rw [parse_records, if_pos hc]
        by_cases hp : endB < offset + 10 + readU16 data (offset + 4)
        · rw [if_pos hp, if_pos hp]
        · rw [if_neg hp, if_neg hp]
          have hb : endB < offset + 10 + readU16 data (offset + 4) + 10 * n := by omega
          have hb' : endB < offset + 10 + readU16 data (offset + 4) + 10 * m := by omega
          by_cases h1 : readU16 data (offset + 2) = 1
          · rw [if_pos h1, if_pos h1]
            exact ih _ _ _ hb hb'
          · rw [if_neg h1, if_neg h1]
            by_cases h2 : readU16 data (offset + 2) = 2
            · rw [if_pos h2, if_pos h2]
              rcases parse_gps_record_cases ((data.drop (offset + 10)).take
                  (readU16 data (offset + 4)))
                  (readU16 data (offset + 8) * 65536 + readU16 data (offset + 6))
                  (bumpCount st (readU16 data (offset + 2))) with ⟨st2, heq⟩ | heq
              · rw [heq]
                exact ih _ _ _ hb hb'
              · rw [heq]
            · rw [if_neg h2, if_neg h2]
              by_cases h7 : readU16 data (offset + 2) = 7
              · rw [if_pos h7, if_pos h7]
                rcases parse_accel_record_cases ((data.drop (offset + 10)).take
                    (readU16 data (offset + 4)))
                    (readU16 data (offset + 8) * 65536 + readU16 data (offset + 6))
                    (bumpCount st (readU16 data (offset + 2))) with ⟨st2, heq⟩ | heq
                · rw [heq]
                  exact ih _ _ _ hb hb'
                · rw [heq]
              · rw [if_neg h7, if_neg h7]
                by_cases h12 : readU16 data (offset + 2) = 12
                · rw [if_pos h12, if_pos h12]
                  rcases parse_gyro_record_cases ((data.drop (offset + 10)).take
                      (readU16 data (offset + 4)))
                      (readU16 data (offset + 8) * 65536 + readU16 data (offset + 6))
                      (bumpCount st (readU16 data (offset + 2))) with ⟨st2, heq⟩ | heq
                  · rw [heq]
                    exact ih _ _ _ hb hb'
                  · rw [heq]
                · rw [if_neg h12, if_neg h12]
                  by_cases ht : readU16 data (offset + 2) = 32769
                  · rw [if_pos ht, if_pos ht]
                  · rw [if_neg ht, if_neg ht]
                    exact ih _ _ _ hb hb'
      · rw [parse_records, if_neg hc]
        conv_rhs => rw [parse_records, if_neg hc]

theorem parse_records_ok_or_unpack (data : List ℕ) (endB : ℕ) :
    ∀ fuel offset st, (∃ st2, parse_records data endB fuel offset st = .ok st2) ∨
      parse_records data endB fuel offset st = .error gpsSizeError ∨
      parse_records data endB fuel offset st = .error imuSizeError := by
  intro fuel
  induction fuel with
  | zero => exact fun offset st => .inl ⟨st, rfl⟩
  | succ n ih =>
    intro offset st
    simp only [parse_records]
    split
    · split
      · exact .inl ⟨st, rfl⟩
      · split
        · exact ih _ _
        · split
          · rcases parse_gps_record_cases ((data.drop (offset + 10)).take
                (readU16 data (offset + 4)))
                (readU16 data (offset + 8) * 65536 + readU16 data (offset + 6))
                (bumpCount st (readU16 data (offset + 2))) with ⟨st2, heq⟩ | heq
            · rw [heq]
              exact ih _ _
            · rw [heq]
              exact .inr (.inl rfl)
          · split
            · rcases parse_accel_record_cases ((data.drop (offset + 10)).take
                  (readU16 data (offset + 4)))
                  (readU16 data (offset + 8) * 65536 + readU16 data (offset + 6))
                  (bumpCount st (readU16 data (offset + 2))) with ⟨st2, heq⟩ | heq
              · rw [heq]
                exact ih _ _
              · rw [heq]
                exact .inr (.inr rfl)
            · split
              · rcases parse_gyro_record_cases ((data.drop (offset + 10)).take
                    (readU16 data (offset + 4)))
                    (readU16 data (offset + 8) * 65536 + readU16 data (offset + 6))
                    (bumpCount st (readU16 data (offset + 2))) with ⟨st2, heq⟩ | heq
                · rw [heq]
                  exact ih _ _
                · rw [heq]
                  exact .inr (.inr rfl)
              · split
                · exact .inl ⟨_, rfl⟩
                · exact ih _ _
    · exact .inl ⟨st, rfl⟩

theorem dictGet_eq_none_of_not_mem {α β : Type} [DecidableEq α] (d : List (α × β))
    (k : α) (h : k ∉ d.map Prod.fst) : dictGet d k = none := by
  induction d with
  | nil => rfl
  | cons p rest ih =>
    simp only [List.map_cons, List.mem_cons] at h
    push_neg at h
    show (if p.1 = k then some p.2 else dictGet rest k) = none
    rw [if_neg fun he => h.1 he.symm]
    exact ih h.2

theorem merge_imu_map_frame (a b : List (ℕ × (ℚ × ℚ × ℚ))) :
    (merge_imu a b).map (fun x => x.frame)
      = List.insertionSort (· ≤ ·) ((a.map Prod.fst ++ b.map Prod.fst).dedup) := by
  simp only [merge_imu, List.map_map]
  exact List.map_id _

theorem merge_frames_sorted_lt (a b : List (ℕ × (ℚ × ℚ × ℚ))) :
    ((merge_imu a b).map (fun x => x.frame)).Sorted (· < ·) := by
  rw [merge_imu_map_frame]
  have hnodup : (List.insertionSort (· ≤ ·) ((a.map Prod.fst ++ b.map Prod.fst).dedup)).Nodup :=
    ((List.perm_insertionSort _ _).nodup_iff).mpr (List.nodup_dedup _)
  have hsorted := List.sorted_insertionSort (· ≤ ·)
    ((a.map Prod.fst ++ b.map Prod.fst).dedup)
  exact hsorted.lt_of_le hnodup

theorem merge_mem_frame (a b : List (ℕ × (ℚ × ℚ × ℚ))) (f : ℕ) :
    f ∈ (merge_imu a b).map (fun x => x.frame) ↔
      f ∈ a.map Prod.fst ∨ f ∈ b.map Prod.fst := by
  rw [merge_imu_map_frame, (List.perm_insertionSort _ _).mem_iff, List.mem_dedup,
    List.mem_append]

theorem eq_ok_of_toOption {α : Type} (e : Except String α) (a : α)
    (h : e.toOption = some a) : e = .ok a := by
  cases e with
  | error err => exact absurd h (by simp [Except.toOption])
  | ok b =>
    simp [Except.toOption] at h
    rw [h]

theorem parse_ok_session_shape (data : List ℕ) (s : RKDSession)
    (h : parse data = .ok s) :
    ∃ st : ScanState, s = {
      file_size := data.length,
      car_id := readU32 data 24,
      session_timestamp := readU32 data 28,
      config := st.config,
      gps_fixes := st.gps_fixes,
      imu_frames := merge_imu st.accel_by_frame st.gyro_by_frame,
      record_counts := st.record_counts,
      terminator_timestamp := st.terminator_timestamp } := by
  rw [parse] at h
  split at h
  · exact absurd h (by simp)
  · split at h
    · exact absurd h (by simp)
    · split at h
      · exact absurd h (by simp)
      · cases heq : parse_records data (data.length - 2) data.length 36 initState with
        | error e =>
          rw [heq] at h
          exact absurd h (by simp)
        | ok st =>
          rw [heq] at h
          refine ⟨st, ?_⟩
          cases h
          rfl

theorem lerp_zero (a b : ℚ) : lerp a b 0 = a := by
  simp [lerp]

theorem lerp_angle_zero (a b : ℚ) : lerp_angle a b 0 = fmod360 a := by
  simp [lerp_angle]

theorem ratTrunc_intCast (n : ℤ) : ratTrunc (n : ℚ) = n := by
  rw [ratTrunc]
  split
  · have h : (-(n : ℚ)) = ((-n : ℤ) : ℚ) := by push_cast; ring
    rw [h, ratFloor_eq_floor, Int.floor_intCast, neg_neg]
  · rw [ratFloor_eq_floor, Int.floor_intCast]

theorem sorted_frames_lt (fixes : List GPSFix)
    (hs : (fixes.map (fun g => g.frame)).Sorted (· < ·)) {i j : ℕ}
    (hij : i < j) (hj : j < fixes.length) :
    (fixes.getD i gpsDefault).frame < (fixes.getD j gpsDefault).frame := by
  have hi' : i < fixes.length := lt_trans hij hj
  have hmi : i < (fixes.map (fun g => g.frame)).length := by simpa using hi'
  have hmj : j < (fixes.map (fun g => g.frame)).length := by simpa using hj
  have h := hs.rel_get_of_lt (a := ⟨i, hmi⟩) (b := ⟨j, hmj⟩) (Fin.mk_lt_mk.mpr hij)
  rw [List.getD_eq_getElem fixes gpsDefault hi', List.getD_eq_getElem fixes gpsDefault hj]
  simpa [List.get_eq_getElem, List.getElem_map] using h

theorem sorted_frames_le (fixes : List GPSFix)
    (hs : (fixes.map (fun g => g.frame)).Sorted (· < ·)) {i j : ℕ}
    (hij : i ≤ j) (hj : j < fixes.length) :
    (fixes.getD i gpsDefault).frame ≤ (fixes.getD j gpsDefault).frame := by
  rcases eq_or_lt_of_le hij with rfl | hlt
  · exact le_refl _
  · exact le_of_lt (sorted_frames_lt fixes hs hlt hj)

theorem advanceIdx_ge (fixes : List GPSFix) (f : ℕ) :
    ∀ fuel idx, idx ≤ advanceIdx fixes f fuel idx := by
  intro fuel
  induction fuel with
  | zero => exact fun idx => le_refl idx
  | succ n ih =>
    intro idx
    rw [advanceIdx]
    split
    · exact le_trans (Nat.le_succ idx) (ih (idx + 1))
    · exact le_refl idx

theorem advanceIdx_lt_length (fixes : List GPSFix) (f : ℕ) :
    ∀ fuel idx, idx < fixes.length → advanceIdx fixes f fuel idx < fixes.length := by
  intro fuel
  induction fuel with
  | zero => exact fun idx h => h
  | succ n ih =>
    intro idx h
    rw [advanceIdx]
    split
    · next hc => exact ih (idx + 1) hc.1
    · exact h

theorem advanceIdx_frame_le (fixes : List GPSFix) (f : ℕ) :
    ∀ fuel idx, (fixes.getD idx gpsDefault).frame ≤ f →
    (fixes.getD (advanceIdx fixes f fuel idx) gpsDefault).frame ≤ f := by
  intro fuel
  induction fuel with
  | zero => exact fun idx h => h
  | succ n ih =>
    intro idx h
    rw [advanceIdx]
    split
    · next hc => exact ih (idx + 1) hc.2
    · exact h

theorem advanceIdx_stop (fixes : List GPSFix) (f : ℕ) :
    ∀ fuel idx, fixes.length ≤ fuel + idx →
    ¬(advanceIdx fixes f fuel idx + 1 < fixes.length ∧
      (fixes.getD (advanceIdx fixes f fuel idx + 1) gpsDefault).frame ≤ f) := by
  intro fuel
  induction fuel with
  | zero =>
    intro idx hle hc
    have : advanceIdx fixes f 0 idx = idx := rfl
    rw [this] at hc
    omega
  | succ n ih =>
    intro idx hle
    rw [advanceIdx]
    split
    · exact ih (idx + 1) (by omega)
    · next hc => exact hc

theorem advanceIdx_eq_of (fixes : List GPSFix)
    (hs : (fixes.map (fun g => g.frame)).Sorted (· < ·)) (f : ℕ) :
    ∀ fuel idx J, J < fixes.length → idx ≤ J → J ≤ idx + fuel →
    (fixes.getD J gpsDefault).frame ≤ f →
    (J + 1 = fixes.length ∨ f < (fixes.getD (J + 1) gpsDefault).frame) →
    advanceIdx fixes f fuel idx = J := by
  intro fuel
  induction fuel with
  | zero =>
    intro idx J hJ hle hub hfJ hstop
    have h : idx = J := by omega
    exact h
  | succ n ih =>
    intro idx J hJ hle hub hfJ hstop
    rw [advanceIdx]
    by_cases hidx : idx = J
    · subst hidx
      rw [if_neg]
      intro hc
      rcases hstop with h | h
      · omega
      · exact absurd hc.2 (not_le.mpr h)
    · have hlt : idx < J := lt_of_le_of_ne hle hidx
      have hcond : idx + 1 < fixes.length ∧ (fixes.getD (idx + 1) gpsDefault).frame ≤ f :=
        ⟨by omega, le_trans (sorted_frames_le fixes hs (by omega) hJ) hfJ⟩
      rw [if_pos hcond]
      exact ih (idx + 1) J hJ (by omega) (by omega) hfJ hstop

theorem advanceIdx_zero_spec (fixes : List GPSFix) (f : ℕ)
    (hne : fixes ≠ []) (h0 : (fixes.getD 0 gpsDefault).frame ≤ f) :
    advanceIdx fixes f fixes.length 0 < fixes.length ∧
    (fixes.getD (advanceIdx fixes f fixes.length 0) gpsDefault).frame ≤ f ∧
    (advanceIdx fixes f fixes.length 0 + 1 = fixes.length ∨
      f < (fixes.getD (advanceIdx fixes f fixes.length 0 + 1) gpsDefault).frame) := by
  have hlen : 0 < fixes.length := List.length_pos.mpr hne
  have h1 := advanceIdx_lt_length fixes f fixes.length 0 hlen
  have h2 := advanceIdx_frame_le fixes f fixes.length 0 h0
  have h3 := advanceIdx_stop fixes f fixes.length 0 (by omega)
  refine ⟨h1, h2, ?_⟩
  by_cases hc : advanceIdx fixes f fixes.length 0 + 1 = fixes.length
  · exact .inl hc
  · refine .inr ?_
    have hlt : advanceIdx fixes f fixes.length 0 + 1 < fixes.length := by omega
    by_contra hnot
    exact h3 ⟨hlt, not_lt.mp hnot⟩

theorem advanceIdx_maximal (fixes : List GPSFix)
    (hs : (fixes.map (fun g => g.frame)).Sorted (· < ·)) (f : ℕ)
    (hne : fixes ≠ []) (h0 : (fixes.getD 0 gpsDefault).frame ≤ f) :
    ∀ j, j < fixes.length → (fixes.getD j gpsDefault).frame ≤ f →
    j ≤ advanceIdx fixes f fixes.length 0 := by
  intro j hj hFj
  by_contra hgt
  push_neg at hgt
  obtain ⟨hJ, _, hstop⟩ := advanceIdx_zero_spec fixes f hne h0
  rcases hstop with hl | hr
  · omega
  · have hle : (fixes.getD (advanceIdx fixes f fixes.length 0 + 1) gpsDefault).frame
        ≤ (fixes.getD j gpsDefault).frame := sorted_frames_le fixes hs (by omega) hj
    omega

theorem advanceIdx_mono (fixes : List GPSFix)
    (hs : (fixes.map (fun g => g.frame)).Sorted (· < ·)) {f g : ℕ}
    (hne : fixes ≠ []) (h0 : (fixes.getD 0 gpsDefault).frame ≤ f) (hfg : f ≤ g) :
    advanceIdx fixes f fixes.length 0 ≤ advanceIdx fixes g fixes.length 0 := by
  obtain ⟨hJ, hFJ, _⟩ := advanceIdx_zero_spec fixes f hne h0
  exact advanceIdx_maximal fixes hs g hne (le_trans h0 hfg) _ hJ (le_trans hFJ hfg)

theorem csvRowsAux_spec (fixes : List GPSFix)
    (hs : (fixes.map (fun g => g.frame)).Sorted (· < ·)) (hne : fixes ≠ []) (hi : ℕ) :
    ∀ imus : List IMUFrame, ((imus.map (fun x => x.frame)).Sorted (· ≤ ·)) →
    ∀ idx, (∀ y ∈ imus, (fixes.getD 0 gpsDefault).frame ≤ y.frame →
        idx ≤ advanceIdx fixes y.frame fixes.length 0) →
    csvRowsAux fixes ((fixes.getD 0 gpsDefault).frame) hi idx imus
      = (imus.filter (fun x => decide ((fixes.getD 0 gpsDefault).frame ≤ x.frame ∧
          x.frame ≤ hi))).map
        (fun x => rowFor fixes (advanceIdx fixes x.frame fixes.length 0) x) := by
  intro imus
  induction imus with
  | nil => intro _ idx _; rfl
  | cons x rest ih =>
    intro hsorted idx hinv
    have hsorted' : ((rest.map (fun x => x.frame)).Sorted (· ≤ ·)) := by
      rw [List.map_cons, List.sorted_cons] at hsorted
      exact hsorted.2
    have hhead : ∀ y ∈ rest, x.frame ≤ y.frame := by
      rw [List.map_cons, List.sorted_cons] at hsorted
      exact fun y hy => hsorted.1 y.frame (List.mem_map_of_mem _ hy)
    rw [csvRowsAux]
    by_cases hrange : x.frame < (fixes.getD 0 gpsDefault).frame ∨ hi < x.frame
    · rw [if_pos hrange, List.filter_cons_of_neg (by simp only [decide_eq_true_eq]; omega)]
      exact ih hsorted' idx (fun y hy => hinv y (List.mem_cons_of_mem _ hy))
    · push_neg at hrange
      rw [if_neg (by push_neg; exact hrange),
        List.filter_cons_of_pos (by simp only [decide_eq_true_eq]; omega)]
      obtain ⟨hJ, hFJ, hstop⟩ := advanceIdx_zero_spec fixes x.frame hne hrange.1
      have hadv : advanceIdx fixes x.frame fixes.length idx
          = advanceIdx fixes x.frame fixes.length 0 :=
        advanceIdx_eq_of fixes hs x.frame fixes.length idx _ hJ
          (hinv x (List.mem_cons_self x rest) hrange.1) (by omega) hFJ hstop
      simp only [hadv, List.map_cons]
      congr 1
      exact ih hsorted' _ (fun y hy hy0 =>
        advanceIdx_mono fixes hs hne hrange.1 (hhead y hy))

theorem headD_eq_getD_zero (l : List GPSFix) (d : GPSFix) : l.headD d = l.getD 0 d := by
  cases l <;> rfl

theorem rowFor_direct (fixes : List GPSFix) (k : ℕ) (x : IMUFrame)
    (h : ¬(k + 1 < fixes.length)) :
    rowFor fixes k x = directRow (fixes.getD k gpsDefault) x := by
  rw [rowFor, if_neg h]
  rfl

theorem rowFor_at_fix (fixes : List GPSFix) (k : ℕ) (x : IMUFrame)
    (hk1 : k + 1 < fixes.length)
    (hfr : x.frame = (fixes.getD k gpsDefault).frame) :
    rowFor fixes k x = { directRow (fixes.getD k gpsDefault) x with
      heading := fmod360 (fixes.getD k gpsDefault).heading_deg } := by
  rw [rowFor, if_pos hk1]
  simp only [hfr, sub_self, zero_div, ite_self, lerp_zero, lerp_angle_zero,
    ratTrunc_intCast, directRow]

/-! ## Claim theorems -/

/-- C2 (amended): over a finished session with frame-sorted GPS fixes and
IMU frames, an IMU frame strictly before the first or strictly after the
last GPS frame produces no row (the row list is exactly one row per
in-range IMU frame, keyed by the from-scratch bracket index); an IMU frame
exactly at the LAST GPS frame takes all GPS-derived fields directly from
that fix (branch (b)); an IMU frame exactly at an EARLIER GPS frame is
instead interpolated with `t = 0`, which reproduces that fix except that
`heading` is normalized into `[0, 360)` (see the counterexample). -/
theorem c2_rows_filter_and_exact_match (s : RKDSession)
    (hs : (s.gps_fixes.map (fun g => g.frame)).Sorted (· < ·))
    (hm : (s.imu_frames.map (fun x => x.frame)).Sorted (· ≤ ·))
    (hg : s.gps_fixes ≠ []) (hmne : s.imu_frames ≠ []) :
    csvRows s = (s.imu_frames.filter (fun x =>
        decide ((s.gps_fixes.getD 0 gpsDefault).frame ≤ x.frame ∧
          x.frame ≤ (s.gps_fixes.getLastD gpsDefault).frame))).map
      (fun x => rowFor s.gps_fixes (advanceIdx s.gps_fixes x.frame s.gps_fixes.length 0) x) ∧
    (∀ x ∈ s.imu_frames, ∀ k, k < s.gps_fixes.length →
      x.frame = (s.gps_fixes.getD k gpsDefault).frame →
      advanceIdx s.gps_fixes x.frame s.gps_fixes.length 0 = k ∧
      (k + 1 = s.gps_fixes.length →
        rowFor s.gps_fixes k x = directRow (s.gps_fixes.getD k gpsDefault) x) ∧
      (k + 1 < s.gps_fixes.length →
        rowFor s.gps_fixes k x = { directRow (s.gps_fixes.getD k gpsDefault) x with
          heading := fmod360 (s.gps_fixes.getD k gpsDefault).heading_deg })) := by
  constructor
  · rw [csvRows, if_neg (by simp [hg, hmne]), headD_eq_getD_zero]
    exact csvRowsAux_spec s.gps_fixes hs hg _ s.imu_frames hm 0
      (fun y hy hy0 => Nat.zero_le _)
  · intro x hx k hk hfr
    have h0 : (s.gps_fixes.getD 0 gpsDefault).frame ≤ x.frame := by
      rw [hfr]
      exact sorted_frames_le s.gps_fixes hs (Nat.zero_le k) hk
    obtain ⟨hJ, hFJ, hstop⟩ := advanceIdx_zero_spec s.gps_fixes x.frame hg h0
    have hkJ : k ≤ advanceIdx s.gps_fixes x.frame s.gps_fixes.length 0 :=
      advanceIdx_maximal s.gps_fixes hs x.frame hg h0 k hk (le_of_eq hfr.symm)
    have hJk : advanceIdx s.gps_fixes x.frame s.gps_fixes.length 0 ≤ k := by
      by_contra hgt
      push_neg at hgt
      have hlt := sorted_frames_lt s.gps_fixes hs hgt hJ
      omega
    refine ⟨le_antisymm hJk hkJ, ?_, ?_⟩
    · intro hlast
      exact rowFor_direct s.gps_fixes k x (by omega)
    · intro hklt
      exact rowFor_at_fix s.gps_fixes k x hklt hfr

theorem c2_witness :
    ((cexSession.gps_fixes.map (fun g => g.frame)).Sorted (· < ·) ∧
     (cexSession.imu_frames.map (fun x => x.frame)).Sorted (· ≤ ·) ∧
     cexSession.gps_fixes ≠ [] ∧ cexSession.imu_frames ≠ []) ∧
    csvRows cexSession = (cexSession.imu_frames.filter (fun x =>
        decide ((cexSession.gps_fixes.getD 0 gpsDefault).frame ≤ x.frame ∧
          x.frame ≤ (cexSession.gps_fixes.getLastD gpsDefault).frame))).map
      (fun x => rowFor cexSession.gps_fixes
        (advanceIdx cexSession.gps_fixes x.frame cexSession.gps_fixes.length 0) x) :=
  ⟨⟨by decide, by decide, by decide, by decide⟩,
    (c2_rows_filter_and_exact_match cexSession (by decide) (by decide) (by decide)
      (by decide)).1⟩

/-- C2 counterexample: in `cexSession` the single IMU frame sits exactly on
the frame of the first (non-last) GPS fix, whose stored heading is `-1`;
the emitted row carries heading `359` (the t = 0 interpolation normalizes
through `_lerp_angle`), not the fix value `-1`, so the GPS-derived fields
are not all taken directly from that fix. -/
theorem c2_counterexample :
    cexImu.frame = cexFix0.frame ∧
    cexSession.gps_fixes.getD 0 gpsDefault = cexFix0 ∧
    (csvRows cexSession).map (fun r => r.heading) = [359] ∧
    cexFix0.heading_deg = -1 ∧
    (csvRows cexSession).map (fun r => r.heading) ≠ [cexFix0.heading_deg] := by
  decide

/-- C4: the IMU merge emits exactly one frame per element of the union of
the accelerometer and gyroscope frame sets, in strictly ascending frame
order; a frame staged only in the accelerometer map has all three gyro
fields zero and vice versa, and a staged channel carries its staged
triple. -/
theorem c4_merge_invariant (a b : List (ℕ × (ℚ × ℚ × ℚ))) :
    (merge_imu a b).map (fun x => x.frame)
      = List.insertionSort (· ≤ ·) ((a.map Prod.fst ++ b.map Prod.fst).dedup) ∧
    ((merge_imu a b).map (fun x => x.frame)).Sorted (· < ·) ∧
    (∀ f : ℕ, f ∈ (merge_imu a b).map (fun x => x.frame) ↔
      f ∈ a.map Prod.fst ∨ f ∈ b.map Prod.fst) ∧
    (∀ x ∈ merge_imu a b,
      (x.frame ∉ a.map Prod.fst → x.accel_x = 0 ∧ x.accel_y = 0 ∧ x.accel_z = 0) ∧
      (x.frame ∉ b.map Prod.fst → x.gyro_x = 0 ∧ x.gyro_y = 0 ∧ x.gyro_z = 0) ∧
      (∀ v, dictGet a x.frame = some v →
        x.accel_x = v.1 ∧ x.accel_y = v.2.1 ∧ x.accel_z = v.2.2) ∧
      (∀ v, dictGet b x.frame = some v →
        x.gyro_x = v.1 ∧ x.gyro_y = v.2.1 ∧ x.gyro_z = v.2.2)) := by
  refine ⟨merge_imu_map_frame a b, merge_frames_sorted_lt a b, merge_mem_frame a b, ?_⟩
  intro x hx
  rw [merge_imu] at hx
  rcases List.mem_map.mp hx with ⟨f, hf, rfl⟩
  refine ⟨?_, ?_, ?_, ?_⟩
  · intro hnot
    rw [dictGet_eq_none_of_not_mem a f hnot]
    exact ⟨rfl, rfl, rfl⟩
  · intro hnot
    rw [dictGet_eq_none_of_not_mem b f hnot]
    exact ⟨rfl, rfl, rfl⟩
  · intro v hv
    show ((dictGet a f).getD (0, 0, 0)).1 = v.1 ∧ ((dictGet a f).getD (0, 0, 0)).2.1 = v.2.1 ∧
      ((dictGet a f).getD (0, 0, 0)).2.2 = v.2.2
    rw [hv]
    exact ⟨rfl, rfl, rfl⟩
  · intro v hv
    show ((dictGet b f).getD (0, 0, 0)).1 = v.1 ∧ ((dictGet b f).getD (0, 0, 0)).2.1 = v.2.1 ∧
      ((dictGet b f).getD (0, 0, 0)).2.2 = v.2.2
    rw [hv]
    exact ⟨rfl, rfl, rfl⟩

theorem c4_witness :
    (⟨1, 1, 2, 3, 0, 0, 0⟩ : IMUFrame) ∈ merge_imu [(1, (1, 2, 3))] [(2, (4, 5, 6))] ∧
    ((1 : ℕ) ∉ ([(2, ((4 : ℚ), (5 : ℚ), (6 : ℚ)))].map Prod.fst)) ∧
    (⟨1, 1, 2, 3, 0, 0, 0⟩ : IMUFrame).gyro_x = 0 ∧
    (⟨1, 1, 2, 3, 0, 0, 0⟩ : IMUFrame).gyro_y = 0 ∧
    (⟨1, 1, 2, 3, 0, 0, 0⟩ : IMUFrame).gyro_z = 0 := by
  refine ⟨by decide, by decide, ?_⟩
  have h := ((c4_merge_invariant [(1, (1, 2, 3))] [(2, (4, 5, 6))]).2.2.2
    (⟨1, 1, 2, 3, 0, 0, 0⟩ : IMUFrame) (by decide)).2.1 (by decide)
  exact h

/-- C9 (amended): every session accepted by `parse` has `imu_frames`
strictly ascending in `frame`, hence with at most one entry per distinct
frame value.  (`gps_fixes` is kept in record-stream arrival order, which
an accepted buffer can make non-ascending; see the counterexample.) -/
theorem c9_imu_sorted_nodup (data : List ℕ) (s : RKDSession)
    (h : parse data = .ok s) :
    ((s.imu_frames.map (fun x => x.frame)).Sorted (· < ·)) ∧
    (s.imu_frames.map (fun x => x.frame)).Nodup := by
  obtain ⟨st, rfl⟩ := parse_ok_session_shape data s h
  exact ⟨merge_frames_sorted_lt _ _, (merge_frames_sorted_lt _ _).nodup⟩

theorem c9_witness :
    parse (RKD_MAGIC ++ List.replicate 28 0) = .ok {
      file_size := 36, car_id := readU32 (RKD_MAGIC ++ List.replicate 28 0) 24,
      session_timestamp := readU32 (RKD_MAGIC ++ List.replicate 28 0) 28,
      config := [], gps_fixes := [], imu_frames := [], record_counts := [],
      terminator_timestamp := 0 } ∧
    ((({ file_size := 36, car_id := readU32 (RKD_MAGIC ++ List.replicate 28 0) 24,
         session_timestamp := readU32 (RKD_MAGIC ++ List.replicate 28 0) 28,
         config := [], gps_fixes := [], imu_frames := [], record_counts := [],
         terminator_timestamp := 0 } : RKDSession).imu_frames.map
           (fun x => x.frame)).Sorted (· < ·)) ∧
    ((({ file_size := 36, car_id := readU32 (RKD_MAGIC ++ List.replicate 28 0) 24,
         session_timestamp := readU32 (RKD_MAGIC ++ List.replicate 28 0) 28,
         config := [], gps_fixes := [], imu_frames := [], record_counts := [],
         terminator_timestamp := 0 } : RKDSession).imu_frames.map
           (fun x => x.frame)).Nodup) := by
  have h : parse (RKD_MAGIC ++ List.replicate 28 0) = .ok {
      file_size := 36, car_id := readU32 (RKD_MAGIC ++ List.replicate 28 0) 24,
      session_timestamp := readU32 (RKD_MAGIC ++ List.replicate 28 0) 28,
      config := [], gps_fixes := [], imu_frames := [], record_counts := [],
      terminator_timestamp := 0 } := eq_ok_of_toOption _ _ (by decide)
  exact ⟨h, c9_imu_sorted_nodup _ _ h⟩

set_option maxRecDepth 10000 in
/-- C9 counterexample: a buffer accepted by `parse` whose GPS records
arrive with frames 5 then 3; the resulting `gps_fixes` sequence is not
sorted ascending by frame, refuting the claim for `gps_fixes`. -/
theorem c9_counterexample :
    ((parse cbufC9).toOption.map (fun s => s.gps_fixes.map (fun g => g.frame)))
      = some [5, 3] ∧
    ¬ (([5, 3] : List ℕ).Sorted (· ≤ ·)) := by
  constructor
  · decide
  · decide

/-- C6 (amended): `parse` fails with the stated human-readable errors when
the buffer is shorter than the 8-byte signature, when the first 8 bytes
differ from the magic, or when fewer than 28 bytes remain for the meta
header (returning no session in those cases); on success `car_id` is
meta-header field index 4 (byte offset 24) and `session_timestamp` field
index 5 (byte offset 28).  These are not the only failures: oversized
GPS/IMU payloads also raise (see the counterexample), so the "exactly
when" of the claim is false. -/
theorem c6_fatal_errors_and_meta_fields (data : List ℕ) :
    (data.length < 8 → parse data = .error "File too small to be an RKD file") ∧
    (8 ≤ data.length → data.take 8 ≠ RKD_MAGIC → parse data = .error "Invalid RKD magic") ∧
    (data.take 8 = RKD_MAGIC → data.length < 36 →
      parse data = .error "File too small for meta header") ∧
    (∀ s, parse data = .ok s →
      s.car_id = readU32 data 24 ∧ s.session_timestamp = readU32 data 28) := by
  refine ⟨?_, ?_, ?_, ?_⟩
  · intro h
    rw [parse, if_pos h]
  · intro h hm
    rw [parse, if_neg (by omega), if_pos hm]
  · intro hm h
    have h8 : 8 ≤ data.length := by
      have := congrArg List.length hm
      simp [List.length_take, RKD_MAGIC] at this
      omega
    rw [parse, if_neg (by omega), if_neg (not_not_intro hm), if_pos h]
  · intro s h
    obtain ⟨st, rfl⟩ := parse_ok_session_shape data s h
    exact ⟨rfl, rfl⟩

theorem c6_witness :
    ([1, 2, 3] : List ℕ).length < 8 ∧
    parse [1, 2, 3] = .error "File too small to be an RKD file" :=
  ⟨by decide, (c6_fatal_errors_and_meta_fields [1, 2, 3]).1 (by decide)⟩

/-- C6 counterexample: a buffer satisfying none of the three header
conditions on which `parse` still fails (an accelerometer record with a
13-byte payload), refuting the "exactly when" of the claim. -/
theorem c6_counterexample :
    errOf (parse cbufC6) = some imuSizeError ∧
    ¬ (cbufC6.length < 8 ∨ cbufC6.take 8 ≠ RKD_MAGIC ∨ cbufC6.length < 36) := by
  constructor
  · decide
  · decide

/-- C10: a buffer of exactly the signature plus any 28-byte meta header (36
bytes, no records, no trailing checksum) parses successfully into a session
with empty config, fixes, IMU frames and counts, and terminator timestamp
zero; the trailing checksum bytes are never required. -/
theorem c10_header_only_parses_empty (meta : List ℕ) (h : meta.length = 28) :
    parse (RKD_MAGIC ++ meta) = .ok {
      file_size := 36, car_id := readU32 (RKD_MAGIC ++ meta) 24,
      session_timestamp := readU32 (RKD_MAGIC ++ meta) 28, config := [],
      gps_fixes := [], imu_frames := [], record_counts := [],
      terminator_timestamp := 0 } := by
  have hlen : (RKD_MAGIC ++ meta).length = 36 := by
    simp [RKD_MAGIC, h]
  have htake : (RKD_MAGIC ++ meta).take 8 = RKD_MAGIC := by
    have h8 : RKD_MAGIC.length = 8 := rfl
    rw [← h8, List.take_left]
  rw [parse, if_neg (by omega), if_neg (not_not_intro htake), if_neg (by omega), hlen,
    parse_records_stop _ _ _ _ _ (by omega)]
  rfl

theorem c10_witness :
    (List.replicate 28 0).length = 28 ∧
    parse (RKD_MAGIC ++ List.replicate 28 0) = .ok {
      file_size := 36, car_id := readU32 (RKD_MAGIC ++ List.replicate 28 0) 24,
      session_timestamp := readU32 (RKD_MAGIC ++ List.replicate 28 0) 28, config := [],
      gps_fixes := [], imu_frames := [], record_counts := [],
      terminator_timestamp := 0 } :=
  ⟨by decide, c10_header_only_parses_empty _ (by decide)⟩

/-- C1 (amended): once the signature is present and the buffer can hold the
meta header, every short-payload decode failure and every stream truncation
is absorbed; the only way `parse` can still fail is the `struct.error`
raised on a GPS payload longer than 36 bytes or an accelerometer or
gyroscope payload longer than 12 bytes. -/
theorem c1_parse_absorbs_soft_failures (data : List ℕ)
    (h1 : data.take 8 = RKD_MAGIC) (h2 : 36 ≤ data.length) :
    (∃ s, parse data = .ok s) ∨ parse data = .error gpsSizeError ∨
    parse data = .error imuSizeError := by
  rw [parse, if_neg (by omega), if_neg (not_not_intro h1), if_neg (by omega)]
  rcases parse_records_ok_or_unpack data (data.length - 2) data.length 36 initState with
    ⟨st, heq⟩ | heq | heq
  · rw [heq]
    exact .inl ⟨_, rfl⟩
  · rw [heq]
    exact .inr (.inl rfl)
  · rw [heq]
    exact .inr (.inr rfl)

theorem c1_witness :
    ((RKD_MAGIC ++ List.replicate 28 0).take 8 = RKD_MAGIC ∧
     36 ≤ (RKD_MAGIC ++ List.replicate 28 0).length) ∧
    ((∃ s, parse (RKD_MAGIC ++ List.replicate 28 0) = .ok s) ∨
     parse (RKD_MAGIC ++ List.replicate 28 0) = .error gpsSizeError ∨
     parse (RKD_MAGIC ++ List.replicate 28 0) = .error imuSizeError) :=
  ⟨by decide, c1_parse_absorbs_soft_failures _ (by decide) (by decide)⟩

/-- C1 counterexample: a buffer that begins with the signature and holds a
full meta header, whose record stream contains one GPS record with a
37-byte payload entirely inside the checksum boundary; `parse` raises the
`struct.error` instead of absorbing it, so the claim as stated fails. -/
theorem c1_counterexample :
    cbufC1.take 8 = RKD_MAGIC ∧ 36 ≤ cbufC1.length ∧
    errOf (parse cbufC1) = some gpsSizeError ∧ (parse cbufC1).toOption = none := by
  decide

/-- C7: for every unsigned 32-bit GPS timestamp `g`, `_gps_to_utc_ms g`
equals `(g - 18 + 315964800) * 1000`; in particular evaluating at
`GPS_LEAP_SECONDS` yields `315964800000`, the Unix-millisecond
representation of 1980-01-06T00:00:00Z. -/
theorem c7_gps_to_utc_ms_formula (g : ℕ) (h : g < 2 ^ 32) :
    gps_to_utc_ms g = ((g : ℤ) - 18 + 315964800) * 1000 ∧
    gps_to_utc_ms GPS_LEAP_SECONDS = 315964800000 := by
  constructor
  · rw [gps_to_utc_ms, gpsEpochUnixSeconds, GPS_LEAP_SECONDS]
    push_cast
    ring
  · decide

theorem c7_witness :
    18 < 2 ^ 32 ∧
    gps_to_utc_ms 18 = (((18 : ℕ) : ℤ) - 18 + 315964800) * 1000 ∧
    gps_to_utc_ms GPS_LEAP_SECONDS = 315964800000 :=
  ⟨by decide, c7_gps_to_utc_ms_formula 18 (by decide)⟩

/-- C3 (amended): the wraparound difference `_lerp_angle` computes lies in
`[-180, 180)` (not `(-180, 180]` as claimed), is congruent to `b - a`
modulo 360, the result is `a + diff * t` normalized into `[0, 360)`, and
`_lerp_angle 350 10 0.5 = 0` (the path through 0, not through 180). -/
theorem c3_lerp_angle_shortest_path (a b t : ℚ) (h0 : 0 ≤ t) (h1 : t ≤ 1) :
    (-180 ≤ angleDiff a b ∧ angleDiff a b < 180) ∧
    fmod360 (angleDiff a b - (b - a)) = 0 ∧
    lerp_angle a b t = fmod360 (a + angleDiff a b * t) ∧
    (0 ≤ lerp_angle a b t ∧ lerp_angle a b t < 360) ∧
    lerp_angle 350 10 (1 / 2) = 0 := by
  refine ⟨⟨?_, ?_⟩, ?_, rfl, ⟨fmod360_nonneg _, fmod360_lt _⟩, by decide⟩
  · have := fmod360_nonneg (b - a + 180)
    rw [angleDiff]
    linarith
  · have := fmod360_lt (b - a + 180)
    rw [angleDiff]
    linarith
  · have h : angleDiff a b - (b - a) = 360 * ((-⌊(b - a + 180) / 360⌋ : ℤ) : ℚ) := by
      rw [angleDiff, fmod360_def]
      push_cast
      ring
    rw [h, fmod360_int_multiple]

theorem c3_witness :
    (0 ≤ (1 : ℚ) / 2 ∧ (1 : ℚ) / 2 ≤ 1) ∧
    ((-180 ≤ angleDiff 350 10 ∧ angleDiff 350 10 < 180) ∧
     fmod360 (angleDiff 350 10 - (10 - 350)) = 0 ∧
     lerp_angle 350 10 (1 / 2) = fmod360 (350 + angleDiff 350 10 * (1 / 2)) ∧
     (0 ≤ lerp_angle 350 10 (1 / 2) ∧ lerp_angle 350 10 (1 / 2) < 360) ∧
     lerp_angle 350 10 (1 / 2) = 0) :=
  ⟨⟨by norm_num, by norm_num⟩, c3_lerp_angle_shortest_path 350 10 (1 / 2) (by norm_num) (by norm_num)⟩

/-- C3 counterexample: at `a = 0`, `b = 180`, `t = 1/2` the unique
difference in the claimed interval `(-180, 180]` is `+180`, whose claimed
interpolant is 90; the code interpolates through `-180` and returns 270. -/
theorem c3_counterexample :
    specAngleDiff 0 180 = 180 ∧
    (-180 < specAngleDiff 0 180 ∧ specAngleDiff 0 180 ≤ 180) ∧
    fmod360 (specAngleDiff 0 180 - (180 - 0)) = 0 ∧
    fmod360 (0 + specAngleDiff 0 180 * (1 / 2)) = 90 ∧
    lerp_angle 0 180 (1 / 2) = 270 ∧
    lerp_angle 0 180 (1 / 2) ≠ fmod360 (0 + specAngleDiff 0 180 * (1 / 2)) := by
  decide

/-- C5: when a record header declares a payload overrunning the
trailing-checksum boundary `endB`, the scanner returns the accumulated
state unchanged: no error, the record neither counted nor decoded, and all
previously decoded records (already inside `st`) retained. -/
theorem c5_truncation_stops_silently (data : List ℕ) (endB fuel offset : ℕ)
    (st : ScanState) (h1 : offset + 10 ≤ endB)
    (h2 : endB < offset + 10 + readU16 data (offset + 4)) :
    parse_records data endB (fuel + 1) offset st = .ok st := by
  rw [parse_records, if_pos h1, if_pos h2]

/-- C8: a record whose payload is present inside the buffer but shorter
than the fixed size of its type (36 bytes GPS, 12 accelerometer, 12
gyroscope, 4 terminator) is silently dropped: no error, no mutation of any
session field or staging map, while the record-type counter is still
incremented (counting happens before dispatch).  For a terminator the scan
then stops; for the other types it continues past the payload. -/
theorem c8_short_payload_only_counts (data : List ℕ) (endB fuel offset : ℕ)
    (st : ScanState) (h1 : offset + 10 ≤ endB)
    (h2 : offset + 10 + readU16 data (offset + 4) ≤ endB)
    (hshort : (readU16 data (offset + 2) = 2 ∧ readU16 data (offset + 4) < 36) ∨
      (readU16 data (offset + 2) = 7 ∧ readU16 data (offset + 4) < 12) ∨
      (readU16 data (offset + 2) = 12 ∧ readU16 data (offset + 4) < 12) ∨
      (readU16 data (offset + 2) = 32769 ∧ readU16 data (offset + 4) < 4)) :
    ((bumpCount st (readU16 data (offset + 2))).config = st.config ∧
     (bumpCount st (readU16 data (offset + 2))).gps_fixes = st.gps_fixes ∧
     (bumpCount st (readU16 data (offset + 2))).accel_by_frame = st.accel_by_frame ∧
     (bumpCount st (readU16 data (offset + 2))).gyro_by_frame = st.gyro_by_frame ∧
     (bumpCount st (readU16 data (offset + 2))).terminator_timestamp
       = st.terminator_timestamp ∧
     dictGet (bumpCount st (readU16 data (offset + 2))).record_counts
       (readU16 data (offset + 2))
       = some ((dictGet st.record_counts (readU16 data (offset + 2))).getD 0 + 1)) ∧
    (if readU16 data (offset + 2) = 32769 then
      parse_records data endB (fuel + 1) offset st
        = .ok (bumpCount st (readU16 data (offset + 2)))
    else
      parse_records data endB (fuel + 1) offset st
        = parse_records data endB fuel (offset + 10 + readU16 data (offset + 4))
            (bumpCount st (readU16 data (offset + 2)))) := by
  have hplen : ((data.drop (offset + 10)).take (readU16 data (offset + 4))).length
      ≤ readU16 data (offset + 4) := by
    simp [List.length_take]
  refine ⟨⟨rfl, rfl, rfl, rfl, rfl, dictGet_dictInsert_self _ _ _⟩, ?_⟩
  have hnotlt : ¬ endB < offset + 10 + readU16 data (offset + 4) := not_lt.mpr h2
  rcases hshort with ⟨ht, hs⟩ | ⟨ht, hs⟩ | ⟨ht, hs⟩ | ⟨ht, hs⟩
  · rw [if_neg (by omega)]
    rw [parse_records, if_pos h1, if_neg hnotlt, if_neg (by omega), if_pos ht,
      parse_gps_record_short _ _ _ (by omega)]
  · rw [if_neg (by omega)]
    rw [parse_records, if_pos h1, if_neg hnotlt, if_neg (by omega), if_neg (by omega),
      if_pos ht, parse_accel_record_short _ _ _ (by omega)]
  · rw [if_neg (by omega)]
    rw [parse_records, if_pos h1, if_neg hnotlt, if_neg (by omega), if_neg (by omega),
      if_neg (by omega), if_pos ht, parse_gyro_record_short _ _ _ (by omega)]
  · rw [if_pos ht]
    rw [parse_records, if_pos h1, if_neg hnotlt, if_neg (by omega), if_neg (by omega),
      if_neg (by omega), if_neg (by omega), if_pos ht,
      parse_terminator_record_short _ _ (by omega)]

theorem c8_witness :
    (36 + 10 ≤ 46 ∧ 36 + 10 + readU16 cbufC8 (36 + 4) ≤ 46 ∧
     readU16 cbufC8 (36 + 2) = 2 ∧ readU16 cbufC8 (36 + 4) < 36) ∧
    ((bumpCount initState (readU16 cbufC8 (36 + 2))).config = initState.config ∧
     (bumpCount initState (readU16 cbufC8 (36 + 2))).gps_fixes = initState.gps_fixes ∧
     (bumpCount initState (readU16 cbufC8 (36 + 2))).accel_by_frame
       = initState.accel_by_frame ∧
     (bumpCount initState (readU16 cbufC8 (36 + 2))).gyro_by_frame
       = initState.gyro_by_frame ∧
     (bumpCount initState (readU16 cbufC8 (36 + 2))).terminator_timestamp
       = initState.terminator_timestamp ∧
     dictGet (bumpCount initState (readU16 cbufC8 (36 + 2))).record_counts
       (readU16 cbufC8 (36 + 2))
       = some ((dictGet initState.record_counts (readU16 cbufC8 (36 + 2))).getD 0 + 1)) ∧
    (if readU16 cbufC8 (36 + 2) = 32769 then
      parse_records cbufC8 46 (0 + 1) 36 initState
        = .ok (bumpCount initState (readU16 cbufC8 (36 + 2)))
    else
      parse_records cbufC8 46 (0 + 1) 36 initState
        = parse_records cbufC8 46 0 (36 + 10 + readU16 cbufC8 (36 + 4))
            (bumpCount initState (readU16 cbufC8 (36 + 2)))) :=
  ⟨by decide, c8_short_payload_only_counts cbufC8 46 0 36 initState (by decide) (by decide)
    (.inl (by decide))⟩

theorem c5_witness :
    (36 + 10 ≤ 46 ∧ 46 < 36 + 10 + readU16 cbufC5 (36 + 4)) ∧
    parse_records cbufC5 46 1 36 initState = .ok initState :=
  ⟨by decide, c5_truncation_stops_silently cbufC5 46 0 36 initState (by decide) (by decide)⟩

end RKD
